import Mathlib

/-!
Verification of the PCDATA/FUNCDATA metadata protocol constants and
pseudo-instructions defined in `src/runtime/funcdata.h`, together with the
declaration/decoding semantics the surrounding runtime attaches to them.

The header itself only pins the integer channel/slot numbering and the
expansions of the three pseudo-assembly statements; the scanner and decoder
live outside this repository's sources, so those parts are modelled from the
specification and marked as such in their doc comments.
-/

namespace Funcdata

/-! ## Channel registry constants (from `src/runtime/funcdata.h`) -/

def PCDATA_UnsafePoint : Nat := 0
def PCDATA_StackMapIndex : Nat := 1
def PCDATA_InlTreeIndex : Nat := 2

def FUNCDATA_ArgsPointerMaps : Nat := 0
def FUNCDATA_LocalsPointerMaps : Nat := 1
def FUNCDATA_StackObjects : Nat := 2
def FUNCDATA_InlTree : Nat := 3
def FUNCDATA_OpenCodedDeferInfo : Nat := 4
def FUNCDATA_ArgInfo : Nat := 5

/-- `ArgsSizeUnknown` is set in `Func.argsize` to mark all functions whose
argument size is unknown (from `src/runtime/funcdata.h`). -/
def ArgsSizeUnknown : Nat := 0x80000000

/-! ## Pseudo-assembly statements (from `src/runtime/funcdata.h`)

A pseudo-assembly statement is either a `PCDATA $channel, $value`
declaration or a `FUNCDATA $slot, sym(SB)` declaration; the symbol operand
is modelled by its name. -/

inductive Instr where
  | pcdata (channel : Nat) (value : Nat)
  | funcdata (slot : Nat) (sym : String)
  deriving DecidableEq, Repr

/-- `GO_ARGS` expands to `FUNCDATA $FUNCDATA_ArgsPointerMaps, go_args_stackmap(SB)`. -/
def GO_ARGS : Instr := .funcdata FUNCDATA_ArgsPointerMaps "go_args_stackmap"

/-- `GO_RESULTS_INITIALIZED` expands to `PCDATA $PCDATA_StackMapIndex, $1`. -/
def GO_RESULTS_INITIALIZED : Instr := .pcdata PCDATA_StackMapIndex 1

/-- `NO_LOCAL_POINTERS` expands to
`FUNCDATA $FUNCDATA_LocalsPointerMaps, no_pointers_stackmap(SB)`. -/
def NO_LOCAL_POINTERS : Instr := .funcdata FUNCDATA_LocalsPointerMaps "no_pointers_stackmap"

/-! ## Declarations and the decoder

Modelled from the spec: a frame annotation is a point-in-time declaration at
a program position, on a channel (a PCDATA channel index or a FUNCDATA slot
index), carrying a value.  A routine emits its declarations in program
order, and the consumer reads, for a resumed program counter, the
declaration most recently passed on each channel. -/

structure Decl (α : Type) where
  pos : Nat
  ch : Nat
  val : α
  deriving DecidableEq, Repr

/-- Modelled from the spec: the consumer's decoder.  It scans the
declarations forward in program order; each declaration whose position has
been passed (`pos ≤ pc`) on the queried channel overwrites the value in
effect, so the result is the most recently passed declaration on that
channel, or `none` when the channel was never declared before `pc`. -/
def decode {α : Type} (decls : List (Decl α)) (ch pc : Nat) : Option α :=
  decls.foldl (fun acc d => if d.pos ≤ pc ∧ d.ch = ch then some d.val else acc) none

/-- The declaration "in effect", stated directly as the spec words it: the
last declaration of the channel whose position is at or before the resumed
program counter. -/
def inEffect {α : Type} (decls : List (Decl α)) (ch pc : Nat) : Option α :=
  (decls.reverse.find? (fun d => decide (d.pos ≤ pc) && decide (d.ch = ch))).map Decl.val

/-- The PCDATA declarations of a routine body, positions being instruction
indices in program order. -/
def pcdataDecls (body : List Instr) : List (Decl Nat) :=
  body.enum.filterMap (fun p =>
    match p.2 with
    | .pcdata ch v => some ⟨p.1, ch, v⟩
    | .funcdata _ _ => none)

/-- The FUNCDATA declarations of a routine body, positions being instruction
indices in program order. -/
def funcdataDecls (body : List Instr) : List (Decl String) :=
  body.enum.filterMap (fun p =>
    match p.2 with
    | .pcdata _ _ => none
    | .funcdata slot sym => some ⟨p.1, slot, sym⟩)

/-! ## Scanner model

The stack scanner and the FUNCDATA table consumer are external collaborators
of this header (they live in the runtime proper, outside the sources under
study), so they are modelled from the spec below. -/

/-- A stack map: a pointer bitmap over stack slots, `true` marking a slot
that holds a live pointer. -/
abbrev StackMap := List Bool

/-- Modelled from the spec: the `no_pointers_stackmap` table referenced by
`NO_LOCAL_POINTERS` is a stack map declaring that no slot holds a pointer. -/
def noPointersStackmap : StackMap := []

/-- A function record as the consumer sees it: argument count, declared
argument-frame size (possibly the `ArgsSizeUnknown` sentinel), the
instruction body carrying the pseudo-assembly declarations, the companion
argument stack map supplied by the Go prototype, and the function's
stack-map table indexed by the active-stack-map PCDATA channel. -/
structure AsmFunc where
  argCount : Nat
  argsize : Nat
  body : List Instr
  goArgsStackmap : StackMap
  stackmaps : List StackMap
  deriving DecidableEq, Repr

/-- Modelled from the spec: resolution of the stack-map symbols that the
pseudo-assembly statements reference — `go_args_stackmap(SB)` resolves to
the companion descriptor derived from the function's Go prototype, and
`no_pointers_stackmap(SB)` to the empty pointer bitmap. -/
def resolveStackmapSym (f : AsmFunc) (sym : String) : Option StackMap :=
  if sym = "go_args_stackmap" then some f.goArgsStackmap
  else if sym = "no_pointers_stackmap" then some noPointersStackmap
  else none

/-- The slot offsets a stack map marks as live pointers. -/
def ptrSlots (m : StackMap) : List Nat :=
  m.enum.filterMap (fun p => if p.2 then some p.1 else none)

/-- Modelled from the spec: the consumer's lookup of an optional FUNCDATA
table.  An absent slot is "nothing to report" (`.ok none`), never an error;
the only error this layer can surface is a table symbol that resolves to
nothing. -/
def lookupFuncdata (f : AsmFunc) (slot pc : Nat) : Except String (Option StackMap) :=
  match decode (funcdataDecls f.body) slot pc with
  | none => .ok none
  | some sym =>
    match resolveStackmapSym f sym with
    | none => .error ("unresolved stack map symbol: " ++ sym)
    | some m => .ok (some m)

/-- Modelled from the spec: the collector's scan of a frame's local stack
variables — the pointer slots of the locals map in effect, or nothing to
report when the locals-pointer-map slot is absent. -/
def scanLocals (f : AsmFunc) (pc : Nat) : Except String (List Nat) :=
  match lookupFuncdata f FUNCDATA_LocalsPointerMaps pc with
  | .error e => .error e
  | .ok none => .ok []
  | .ok (some m) => .ok (ptrSlots m)

/-- The outcome of scanning a function's argument region: a precise scan of
a known number of bytes reporting the live pointer slots, or a refusal to
attempt precise argument scanning. -/
inductive ArgScan where
  | precise (bytes : Nat) (livePtrs : List Nat)
  | imprecise
  deriving DecidableEq, Repr

/-- Modelled from the spec: the collector's scan of a frame's argument
region.  A declared argument-frame size equal to the `ArgsSizeUnknown`
sentinel means "do not attempt precise argument scanning"; otherwise the
size is a literal byte count and the args-pointer-map slot (absent meaning
nothing to report) gives the live pointer slots. -/
def scanArguments (f : AsmFunc) (pc : Nat) : Except String ArgScan :=
  if f.argsize = ArgsSizeUnknown then .ok .imprecise
  else
    match lookupFuncdata f FUNCDATA_ArgsPointerMaps pc with
    | .error e => .error e
    | .ok none => .ok (.precise f.argsize [])
    | .ok (some m) => .ok (.precise f.argsize (ptrSlots m))

/-- The active-stack-map index in effect at a program counter: the most
recently passed declaration on the `PCDATA_StackMapIndex` channel, the
default entry 0 being in effect before any declaration. -/
def stackMapIndexAt (body : List Instr) (pc : Nat) : Nat :=
  (decode (pcdataDecls body) PCDATA_StackMapIndex pc).getD 0

/-- Modelled from the spec: in a routine following the
`GO_RESULTS_INITIALIZED` convention, the stack map selected by the
declaration (entry 1) treats the result slots as live pointers, while the
entry in effect before it (entry 0) leaves them unscanned. -/
def resultSlotsLive (idx : Nat) : Bool := idx == 1

/-- Modelled from the spec: well-formed use of `GO_ARGS` in a routine — if
the routine uses it, it is the first instruction; it is omitted only when
the routine takes no arguments at all. -/
def goArgsUsageOk (f : AsmFunc) : Bool :=
  if GO_ARGS ∈ f.body then f.body.head? == some GO_ARGS
  else f.argCount == 0

/-! ## Decoder lemmas -/

theorem decode_foldl_init {α : Type} (decls : List (Decl α)) (ch pc : Nat)
    (a : Option α) :
    decls.foldl (fun acc d => if d.pos ≤ pc ∧ d.ch = ch then some d.val else acc) a
      = (decode decls ch pc).elim a some := by
  induction decls generalizing a with
  | nil => simp [decode]
  | cons d ds ih =>
      simp only [decode, List.foldl_cons]
      rw [ih, ih (if d.pos ≤ pc ∧ d.ch = ch then some d.val else none)]
      cases h : decode ds ch pc <;> by_cases hd : d.pos ≤ pc ∧ d.ch = ch <;>
        simp [hd]

theorem decode_append {α : Type} (l₁ l₂ : List (Decl α)) (ch pc : Nat) :
    decode (l₁ ++ l₂) ch pc = (decode l₂ ch pc).elim (decode l₁ ch pc) some := by
  simp only [decode, List.foldl_append]
  rw [decode_foldl_init]
  rfl

theorem decode_singleton {α : Type} (d : Decl α) (ch pc : Nat) :
    decode [d] ch pc = if d.pos ≤ pc ∧ d.ch = ch then some d.val else none := by
  simp [decode]

theorem decode_append_singleton {α : Type} (l : List (Decl α)) (d : Decl α)
    (ch pc : Nat) :
    decode (l ++ [d]) ch pc
      = if d.pos ≤ pc ∧ d.ch = ch then some d.val else decode l ch pc := by
  rw [decode_append, decode_singleton]
  by_cases hd : d.pos ≤ pc ∧ d.ch = ch <;> simp [hd]

/-- Appending a declaration on a different channel never changes the decoded
value of a channel. -/
theorem decode_append_ne_channel {α : Type} (l : List (Decl α)) (d : Decl α)
    (ch pc : Nat) (h : d.ch ≠ ch) :
    decode (l ++ [d]) ch pc = decode l ch pc := by
  rw [decode_append_singleton]
  simp [h]

/-- Declarations on other channels are invisible to the decoder: decoding a
channel only depends on the declarations of that channel. -/
theorem decode_filter {α : Type} (decls : List (Decl α)) (ch pc : Nat) :
    decode decls ch pc = decode (decls.filter (fun d => decide (d.ch = ch))) ch pc := by
  induction decls using List.reverseRecOn with
  | nil => rfl
  | append_singleton ds d ih =>
      by_cases hd : d.ch = ch
      · have hf : List.filter (fun d => decide (d.ch = ch)) [d] = [d] := by simp [hd]
        rw [List.filter_append, hf, decode_append_singleton, decode_append_singleton, ih]
      · have hf : List.filter (fun d => decide (d.ch = ch)) [d] = [] := by simp [hd]
        rw [List.filter_append, hf, List.append_nil,
          decode_append_ne_channel ds d ch pc hd, ih]

theorem decode_eq_none_of_no_match {α : Type} (decls : List (Decl α)) (ch pc : Nat)
    (h : ∀ e ∈ decls, ¬(e.pos ≤ pc ∧ e.ch = ch)) :
    decode decls ch pc = none := by
  induction decls with
  | nil => rfl
  | cons d ds ih =>
      have hd := h d (List.mem_cons_self d ds)
      simp only [decode, List.foldl_cons, if_neg hd]
      exact ih (fun e he => h e (List.mem_cons_of_mem d he))

/-- The forward-scanning decoder computes exactly the last declaration of
the channel whose position is at or before the program counter. -/
theorem decode_eq_inEffect {α : Type} (decls : List (Decl α)) (ch pc : Nat) :
    decode decls ch pc = inEffect decls ch pc := by
  induction decls using List.reverseRecOn with
  | nil => rfl
  | append_singleton l d ih =>
      rw [decode_append_singleton]
      unfold inEffect
      rw [List.reverse_append, List.reverse_singleton, List.singleton_append,
        List.find?]
      by_cases hd : d.pos ≤ pc ∧ d.ch = ch
      · rw [if_pos hd]
        have hb : (decide (d.pos ≤ pc) && decide (d.ch = ch)) = true := by
          simp [hd.1, hd.2]
        rw [hb]
        rfl
      · rw [if_neg hd]
        have hb : (decide (d.pos ≤ pc) && decide (d.ch = ch)) = false := by
          rcases Decidable.not_and_iff_or_not.mp hd with h1 | h1 <;> simp [h1]
        rw [hb]
        exact ih

/-- A declaration's value stays decoded until a later declaration of the
same channel is passed. -/
theorem decode_last_passed {α : Type} (l₁ l₂ : List (Decl α)) (d : Decl α) (pc : Nat)
    (hpos : d.pos ≤ pc) (hlater : ∀ e ∈ l₂, e.ch = d.ch → pc < e.pos) :
    decode (l₁ ++ d :: l₂) d.ch pc = some d.val := by
  have h2 : decode l₂ d.ch pc = none :=
    decode_eq_none_of_no_match l₂ d.ch pc
      (fun e he hc => absurd hc.1 (Nat.not_le_of_lt (hlater e he hc.2)))
  have hcons : decode (d :: l₂) d.ch pc = some d.val := by
    show List.foldl _ (if d.pos ≤ pc ∧ d.ch = d.ch then some d.val else none) l₂
      = some d.val
    rw [if_pos (And.intro hpos rfl), decode_foldl_init, h2]
    rfl
  rw [decode_append, hcons]
  rfl

/-- Beyond the position of every declaration in the list, the decoded value
no longer changes. -/
theorem decode_stable_beyond {α : Type} (decls : List (Decl α)) (ch p q : Nat)
    (h : ∀ e ∈ decls, e.pos ≤ p) (hpq : p ≤ q) :
    decode decls ch q = decode decls ch p := by
  unfold decode
  apply List.foldl_ext
  intro a e he
  have hp := h e he
  have hiff : (e.pos ≤ q ∧ e.ch = ch) ↔ (e.pos ≤ p ∧ e.ch = ch) :=
    ⟨fun hc => ⟨hp, hc.2⟩, fun hc => ⟨Nat.le_trans hp hpq, hc.2⟩⟩
  rw [if_congr hiff rfl rfl]

/-! ## Claims -/

/-- C1: the channel registry assigns PCDATA channel indices
unsafe-point = 0, active-stack-map = 1, active-inline-tree = 2, and FUNCDATA
slot indices args-pointer-map = 0, locals-pointer-map = 1,
stack-objects = 2, inline-tree = 3, open-coded-defer-info = 4,
arg-info = 5; within each group the values are pairwise distinct, the
PCDATA group equals the set \x7b0,1,2\x7d and the FUNCDATA group equals the
set \x7b0,1,2,3,4,5\x7d. -/
theorem channel_registry_values :
    (PCDATA_UnsafePoint = 0 ∧ PCDATA_StackMapIndex = 1 ∧ PCDATA_InlTreeIndex = 2)
    ∧ (FUNCDATA_ArgsPointerMaps = 0 ∧ FUNCDATA_LocalsPointerMaps = 1
       ∧ FUNCDATA_StackObjects = 2 ∧ FUNCDATA_InlTree = 3
       ∧ FUNCDATA_OpenCodedDeferInfo = 4 ∧ FUNCDATA_ArgInfo = 5)
    ∧ List.Pairwise (· ≠ ·)
        [PCDATA_UnsafePoint, PCDATA_StackMapIndex, PCDATA_InlTreeIndex]
    ∧ List.Pairwise (· ≠ ·)
        [FUNCDATA_ArgsPointerMaps, FUNCDATA_LocalsPointerMaps,
         FUNCDATA_StackObjects, FUNCDATA_InlTree,
         FUNCDATA_OpenCodedDeferInfo, FUNCDATA_ArgInfo]
    ∧ ({PCDATA_UnsafePoint, PCDATA_StackMapIndex, PCDATA_InlTreeIndex} : Finset Nat)
        = {0, 1, 2}
    ∧ ({FUNCDATA_ArgsPointerMaps, FUNCDATA_LocalsPointerMaps, FUNCDATA_StackObjects,
        FUNCDATA_InlTree, FUNCDATA_OpenCodedDeferInfo, FUNCDATA_ArgInfo} : Finset Nat)
        = {0, 1, 2, 3, 4, 5} := by
  decide

theorem channel_registry_values_witness :
    PCDATA_UnsafePoint = 0 ∧ PCDATA_StackMapIndex = 1 ∧ PCDATA_InlTreeIndex = 2 :=
  channel_registry_values.1

/-- C6: decoding a frame's declarations at any resumed program counter
yields exactly the value in effect there under
forward-scan-to-last-declaration semantics, and a declared channel value
remains in effect until function exit or until a later declaration of the
same channel is passed. -/
theorem decl_protocol_roundtrip :
    (∀ (α : Type) (decls : List (Decl α)) (ch pc : Nat),
      decode decls ch pc = inEffect decls ch pc)
    ∧ (∀ (α : Type) (l₁ l₂ : List (Decl α)) (d : Decl α) (pc : Nat),
      d.pos ≤ pc → (∀ e ∈ l₂, e.ch = d.ch → pc < e.pos) →
      decode (l₁ ++ d :: l₂) d.ch pc = some d.val) :=
  ⟨fun _ decls ch pc => decode_eq_inEffect decls ch pc,
   fun _ l₁ l₂ d pc h1 h2 => decode_last_passed l₁ l₂ d pc h1 h2⟩

theorem decl_protocol_roundtrip_witness :
    decode ([⟨0, 1, 10⟩] ++ (⟨1, 1, 20⟩ : Decl Nat) :: [⟨3, 1, 30⟩]) 1 2 = some 20 :=
  decl_protocol_roundtrip.2 Nat [⟨0, 1, 10⟩] [⟨3, 1, 30⟩] ⟨1, 1, 20⟩ 2
    (by decide) (by decide)

/-- C7: redeclaring a channel with the value already in effect is a no-op —
for every program counter, decoding with the redeclaration present equals
decoding with it removed. -/
theorem redeclaration_idempotent {α : Type} (xs ys : List (Decl α))
    (p ch : Nat) (v : α) (pc : Nat)
    (h₁ : ∀ e ∈ xs, e.pos ≤ p)
    (h₂ : decode xs ch p = some v) :
    decode (xs ++ ⟨p, ch, v⟩ :: ys) ch pc = decode (xs ++ ys) ch pc := by
  have key : decode (xs ++ [⟨p, ch, v⟩]) ch pc = decode xs ch pc := by
    rw [decode_append_singleton]
    show (if p ≤ pc ∧ ch = ch then some v else decode xs ch pc) = decode xs ch pc
    by_cases hpc : p ≤ pc
    · rw [if_pos (And.intro hpc rfl), decode_stable_beyond xs ch p pc h₁ hpc, h₂]
    · exact if_neg (fun hc => hpc hc.1)
  have hassoc : xs ++ ⟨p, ch, v⟩ :: ys = (xs ++ [⟨p, ch, v⟩]) ++ ys := by simp
  rw [hassoc, decode_append, key, ← decode_append]

theorem redeclaration_idempotent_witness :
    (∀ e ∈ ([⟨0, 1, 7⟩] : List (Decl Nat)), e.pos ≤ 2)
    ∧ decode ([⟨0, 1, 7⟩] : List (Decl Nat)) 1 2 = some 7
    ∧ decode (([⟨0, 1, 7⟩] : List (Decl Nat)) ++ ⟨2, 1, 7⟩ :: [⟨4, 1, 9⟩]) 1 3
        = decode (([⟨0, 1, 7⟩] : List (Decl Nat)) ++ [⟨4, 1, 9⟩]) 1 3 :=
  ⟨by decide, by decide,
   redeclaration_idempotent [⟨0, 1, 7⟩] [⟨4, 1, 9⟩] 2 1 7 3 (by decide) (by decide)⟩

/-- Decoding a channel whose declarations consist of a single declaration. -/
theorem decode_of_filter_singleton {α : Type} (decls : List (Decl α)) (ch : Nat)
    (d : Decl α) (h : decls.filter (fun e => decide (e.ch = ch)) = [d]) (pc : Nat) :
    decode decls ch pc = if d.pos ≤ pc ∧ d.ch = ch then some d.val else none := by
  rw [decode_filter, h, decode_singleton]

/-- The stack-map index of a routine whose only declaration is
`GO_RESULTS_INITIALIZED` at position 0. -/
theorem stackMapIndexAt_single (pc : Nat) :
    stackMapIndexAt [GO_RESULTS_INITIALIZED] pc = 1 := by
  unfold stackMapIndexAt
  rw [decode_of_filter_singleton (pcdataDecls [GO_RESULTS_INITIALIZED])
    PCDATA_StackMapIndex ⟨0, PCDATA_StackMapIndex, 1⟩ rfl pc]
  rw [if_pos (And.intro (Nat.zero_le pc) rfl)]
  rfl

/-- C2: a function record whose declared argument-frame size equals the
unknown-size sentinel is never scanned as if that value were a real byte
count: for any resumed program counter the scanner refuses precise argument
scanning. -/
theorem args_size_unknown_no_precise_scan (f : AsmFunc) (pc : Nat)
    (h : f.argsize = ArgsSizeUnknown) :
    scanArguments f pc = .ok ArgScan.imprecise
    ∧ ∀ bytes live, scanArguments f pc ≠ .ok (ArgScan.precise bytes live) := by
  have hs : scanArguments f pc = .ok ArgScan.imprecise := by
    unfold scanArguments
    rw [if_pos h]
  exact ⟨hs, fun bytes live hc => by rw [hs] at hc; simp at hc⟩

theorem args_size_unknown_no_precise_scan_witness :
    (⟨0, ArgsSizeUnknown, [], [], []⟩ : AsmFunc).argsize = ArgsSizeUnknown
    ∧ scanArguments ⟨0, ArgsSizeUnknown, [], [], []⟩ 0 = .ok ArgScan.imprecise
    ∧ scanArguments ⟨0, ArgsSizeUnknown, [], [], []⟩ 0
        ≠ .ok (ArgScan.precise 8 [0]) :=
  ⟨rfl, (args_size_unknown_no_precise_scan ⟨0, ArgsSizeUnknown, [], [], []⟩ 0 rfl).1,
   (args_size_unknown_no_precise_scan ⟨0, ArgsSizeUnknown, [], [], []⟩ 0 rfl).2 8 [0]⟩

/-- C3: `GO_ARGS` expands to a FUNCDATA declaration on the args-pointer-map
slot (slot 0) referencing the companion argument-stack-map descriptor, and a
well-formed routine omits it only when it takes no arguments at all and
otherwise makes it the first instruction. -/
theorem go_args_contract :
    GO_ARGS = Instr.funcdata FUNCDATA_ArgsPointerMaps "go_args_stackmap"
    ∧ FUNCDATA_ArgsPointerMaps = 0
    ∧ (∀ f : AsmFunc, resolveStackmapSym f "go_args_stackmap" = some f.goArgsStackmap)
    ∧ (∀ f : AsmFunc, goArgsUsageOk f = true →
        (GO_ARGS ∉ f.body → f.argCount = 0)
        ∧ (GO_ARGS ∈ f.body → f.body.head? = some GO_ARGS)) := by
  refine ⟨rfl, rfl, fun f => ?_, fun f h => ?_⟩
  · unfold resolveStackmapSym
    rw [if_pos rfl]
  · unfold goArgsUsageOk at h
    by_cases hm : GO_ARGS ∈ f.body
    · rw [if_pos hm] at h
      exact ⟨fun hn => absurd hm hn, fun _ => by simpa using h⟩
    · rw [if_neg hm] at h
      exact ⟨fun _ => by simpa using h, fun hmem => absurd hmem hm⟩

theorem go_args_contract_witness :
    goArgsUsageOk ⟨1, 8, [GO_ARGS], [true], []⟩ = true
    ∧ ((GO_ARGS ∉ ([GO_ARGS] : List Instr) → (1 : Nat) = 0)
       ∧ (GO_ARGS ∈ ([GO_ARGS] : List Instr)
          → ([GO_ARGS] : List Instr).head? = some GO_ARGS)) :=
  ⟨by decide,
   go_args_contract.2.2.2 ⟨1, 8, [GO_ARGS], [true], []⟩ (by decide)⟩

/-- C4: `GO_RESULTS_INITIALIZED` is a PCDATA declaration on the
active-stack-map channel; in a routine whose only active-stack-map
declaration is made at position `p`, every program counter from `p` onward
sees stack map 1 with the result slots treated as live, and every program
counter before `p` sees the default map 0 with the result slots unscanned. -/
theorem go_results_initialized_contract :
    GO_RESULTS_INITIALIZED = Instr.pcdata PCDATA_StackMapIndex 1
    ∧ (∀ (body : List Instr) (p : Nat),
        body[p]? = some GO_RESULTS_INITIALIZED →
        (⟨p, PCDATA_StackMapIndex, 1⟩ : Decl Nat) ∈ pcdataDecls body)
    ∧ (∀ (body : List Instr) (p : Nat),
        (pcdataDecls body).filter (fun d => decide (d.ch = PCDATA_StackMapIndex))
          = [⟨p, PCDATA_StackMapIndex, 1⟩] →
        ∀ pc, stackMapIndexAt body pc = (if p ≤ pc then 1 else 0)
          ∧ (resultSlotsLive (stackMapIndexAt body pc) = true ↔ p ≤ pc)) := by
  refine ⟨rfl, fun body p h => ?_, fun body p hfil pc => ?_⟩
  · exact List.mem_filterMap.mpr
      ⟨(p, GO_RESULTS_INITIALIZED), List.mk_mem_enum_iff_getElem?.mpr h, rfl⟩
  · have hdec : decode (pcdataDecls body) PCDATA_StackMapIndex pc
        = if p ≤ pc then some 1 else none := by
      rw [decode_of_filter_singleton _ _ _ hfil]
      by_cases hp : p ≤ pc
      · rw [if_pos (And.intro hp rfl), if_pos hp]
      · rw [if_neg (fun hc => hp hc.1), if_neg hp]
    by_cases hp : p ≤ pc <;>
      simp [stackMapIndexAt, hdec, hp, resultSlotsLive]

theorem go_results_initialized_contract_witness :
    ((⟨0, PCDATA_StackMapIndex, 1⟩ : Decl Nat) ∈ pcdataDecls [GO_RESULTS_INITIALIZED])
    ∧ (stackMapIndexAt [GO_RESULTS_INITIALIZED] 2 = (if 0 ≤ 2 then 1 else 0)
       ∧ (resultSlotsLive (stackMapIndexAt [GO_RESULTS_INITIALIZED] 2) = true ↔ 0 ≤ 2)) :=
  ⟨go_results_initialized_contract.2.1 [GO_RESULTS_INITIALIZED] 0 (by decide),
   go_results_initialized_contract.2.2 [GO_RESULTS_INITIALIZED] 0 (by decide) 2⟩

/-- C5: `NO_LOCAL_POINTERS` is a FUNCDATA declaration on the
locals-pointer-map slot (slot 1) referencing the no-pointers stack map, and
a routine declaring it has the collector report zero local pointers at
every program counter. -/
theorem no_local_pointers_contract :
    NO_LOCAL_POINTERS = Instr.funcdata FUNCDATA_LocalsPointerMaps "no_pointers_stackmap"
    ∧ FUNCDATA_LocalsPointerMaps = 1
    ∧ (∀ f : AsmFunc, resolveStackmapSym f "no_pointers_stackmap" = some noPointersStackmap)
    ∧ ptrSlots noPointersStackmap = []
    ∧ (∀ (f : AsmFunc) (p : Nat),
        (funcdataDecls f.body).filter (fun d => decide (d.ch = FUNCDATA_LocalsPointerMaps))
          = [⟨p, FUNCDATA_LocalsPointerMaps, "no_pointers_stackmap"⟩] →
        ∀ pc, scanLocals f pc = .ok []) := by
  refine ⟨rfl, rfl, fun f => ?_, rfl, fun f p hfil pc => ?_⟩
  · unfold resolveStackmapSym
    rw [if_neg (by decide), if_pos rfl]
  · have hres : resolveStackmapSym f "no_pointers_stackmap" = some noPointersStackmap := by
      unfold resolveStackmapSym
      rw [if_neg (by decide), if_pos rfl]
    by_cases hp : p ≤ pc <;>
      simp [scanLocals, lookupFuncdata, decode_of_filter_singleton _ _ _ hfil,
        hp, hres, ptrSlots, noPointersStackmap]

theorem no_local_pointers_contract_witness :
    scanLocals ⟨0, 0, [NO_LOCAL_POINTERS], [], []⟩ 3 = .ok [] :=
  no_local_pointers_contract.2.2.2.2 ⟨0, 0, [NO_LOCAL_POINTERS], [], []⟩ 0 rfl 3

/-- C8: absence is never an error — a consumer lookup of an absent FUNCDATA
slot reports nothing rather than an error, and a function with no arguments
that omits the argument-pointer-map declaration has its empty argument
region scanned without failure. -/
theorem absent_tables_not_error :
    (∀ (f : AsmFunc) (slot pc : Nat),
      decode (funcdataDecls f.body) slot pc = none →
      lookupFuncdata f slot pc = .ok none)
    ∧ (∀ (f : AsmFunc) (pc : Nat),
      f.argCount = 0 → f.argsize = 0 →
      decode (funcdataDecls f.body) FUNCDATA_ArgsPointerMaps pc = none →
      scanArguments f pc = .ok (ArgScan.precise 0 [])) := by
  constructor
  · intro f slot pc h
    unfold lookupFuncdata
    rw [h]
  · intro f pc hargs hsize h
    have hlook : lookupFuncdata f FUNCDATA_ArgsPointerMaps pc = .ok none := by
      unfold lookupFuncdata
      rw [h]
    unfold scanArguments
    rw [hsize, if_neg (by decide), hlook]

theorem absent_tables_not_error_witness :
    lookupFuncdata ⟨0, 0, [], [], []⟩ FUNCDATA_InlTree 0 = .ok none
    ∧ scanArguments ⟨0, 0, [], [], []⟩ 0 = .ok (ArgScan.precise 0 []) :=
  ⟨absent_tables_not_error.1 ⟨0, 0, [], [], []⟩ FUNCDATA_InlTree 0 rfl,
   absent_tables_not_error.2 ⟨0, 0, [], [], []⟩ 0 rfl rfl rfl⟩

/-- C9: `GO_ARGS` and `NO_LOCAL_POINTERS` target distinct FUNCDATA slots
(0 versus 1), so neither declaration supersedes the other: appending either
leaves the other slot's decoded value unchanged, and in a routine declaring
both, both tables are decoded simultaneously at every later program
counter. -/
theorem distinct_slots_no_supersession :
    FUNCDATA_ArgsPointerMaps ≠ FUNCDATA_LocalsPointerMaps
    ∧ (∀ (ds : List (Decl String)) (p pc : Nat),
        decode (ds ++ [⟨p, FUNCDATA_LocalsPointerMaps, "no_pointers_stackmap"⟩])
          FUNCDATA_ArgsPointerMaps pc = decode ds FUNCDATA_ArgsPointerMaps pc)
    ∧ (∀ (ds : List (Decl String)) (p pc : Nat),
        decode (ds ++ [⟨p, FUNCDATA_ArgsPointerMaps, "go_args_stackmap"⟩])
          FUNCDATA_LocalsPointerMaps pc = decode ds FUNCDATA_LocalsPointerMaps pc)
    ∧ (∀ pc : Nat,
        decode (funcdataDecls [GO_ARGS, NO_LOCAL_POINTERS])
          FUNCDATA_ArgsPointerMaps (pc + 1) = some "go_args_stackmap"
        ∧ decode (funcdataDecls [GO_ARGS, NO_LOCAL_POINTERS])
          FUNCDATA_LocalsPointerMaps (pc + 1) = some "no_pointers_stackmap") := by
  refine ⟨by decide, fun ds p pc => ?_, fun ds p pc => ?_, fun pc => ?_⟩
  · exact decode_append_ne_channel ds _ _ pc (by show (1 : Nat) ≠ 0; decide)
  · exact decode_append_ne_channel ds _ _ pc (by show (0 : Nat) ≠ 1; decide)
  · have hd : funcdataDecls [GO_ARGS, NO_LOCAL_POINTERS]
        = [⟨0, FUNCDATA_ArgsPointerMaps, "go_args_stackmap"⟩,
           ⟨1, FUNCDATA_LocalsPointerMaps, "no_pointers_stackmap"⟩] := rfl
    have h1 : (1 : Nat) ≤ pc + 1 := Nat.succ_le_succ (Nat.zero_le pc)
    constructor
    · rw [hd]
      simp [decode, FUNCDATA_ArgsPointerMaps, FUNCDATA_LocalsPointerMaps,
        Nat.zero_le, h1]
    · rw [hd]
      simp [decode, FUNCDATA_ArgsPointerMaps, FUNCDATA_LocalsPointerMaps,
        Nat.zero_le, h1]

theorem distinct_slots_no_supersession_witness :
    decode (([⟨0, FUNCDATA_ArgsPointerMaps, "go_args_stackmap"⟩] : List (Decl String))
        ++ [⟨1, FUNCDATA_LocalsPointerMaps, "no_pointers_stackmap"⟩])
      FUNCDATA_ArgsPointerMaps 5
      = decode ([⟨0, FUNCDATA_ArgsPointerMaps, "go_args_stackmap"⟩] : List (Decl String))
        FUNCDATA_ArgsPointerMaps 5 :=
  distinct_slots_no_supersession.2.1
    [⟨0, FUNCDATA_ArgsPointerMaps, "go_args_stackmap"⟩] 1 5

/-- C10: `GO_RESULTS_INITIALIZED` selects the fixed stack-map entry 1 on the
active-stack-map channel, distinct from the default entry 0 in effect
before the declaration; a function using it whose stack-map indexing stays
within its stack-map table therefore has at least two stack-map entries. -/
theorem go_results_initialized_index_one :
    GO_RESULTS_INITIALIZED = Instr.pcdata PCDATA_StackMapIndex 1
    ∧ PCDATA_StackMapIndex = 1
    ∧ (1 : Nat) ≠ 0
    ∧ ∀ (f : AsmFunc) (p : Nat),
        (pcdataDecls f.body).filter (fun d => decide (d.ch = PCDATA_StackMapIndex))
          = [⟨p, PCDATA_StackMapIndex, 1⟩] →
        (∀ pc, stackMapIndexAt f.body pc < f.stackmaps.length) →
        2 ≤ f.stackmaps.length := by
  refine ⟨rfl, rfl, by decide, fun f p hfil hwf => ?_⟩
  have h1 : stackMapIndexAt f.body p = 1 := by
    unfold stackMapIndexAt
    rw [decode_of_filter_singleton _ _ _ hfil p,
      if_pos (And.intro (Nat.le_refl p) rfl)]
    rfl
  have := hwf p
  rw [h1] at this
  omega

theorem go_results_initialized_index_one_witness :
    2 ≤ (AsmFunc.stackmaps ⟨0, 0, [GO_RESULTS_INITIALIZED], [], [[], [true]]⟩).length :=
  go_results_initialized_index_one.2.2.2
    ⟨0, 0, [GO_RESULTS_INITIALIZED], [], [[], [true]]⟩ 0 (by decide)
    (fun pc => by
      show stackMapIndexAt [GO_RESULTS_INITIALIZED] pc < 2
      rw [stackMapIndexAt_single]
      decide)

end Funcdata
